import Mathlib

/-!
Shallow embedding of `src/librustc_data_structures/sync.rs` (serial mode,
i.e. `cfg!(parallel_queries)` false) from the rust repository.

Conventions of the embedding:
* The serial backing of `Lock<T>` is `RefCell<T>`; we model its state as the
  owned value together with a borrow flag.  `borrow_mut` panics when the
  flag is set; panics are modelled as `none` of an `Option` result.
* Stateful methods become pure functions from the receiver state to a pair
  of (result, new state).
* Closures (`FnOnce`) become Lean functions; a closure that may fail
  partway becomes a function into `Except`.
* Assertion failures (`assert!`) and other panics are modelled as `none`.
-/

namespace RustcSync

/-- Rust `std::sync::atomic::Ordering`: the ordering argument every atomic
operation receives.  The serial `Atomic<T>` ignores it entirely. -/
inductive MemOrdering where
  | relaxed
  | acquire
  | release
  | acqRel
  | seqCst
deriving DecidableEq, Repr

/-- Rust `Once<T>` from sync.rs: `pub struct Once<T>(Lock<Option<T>>, PhantomData<T>)`.
The observable state is the inner `Option<T>`: `none` is the Empty state,
`some v` the Set state. -/
structure Once (T : Type u) where
  val : Option T
deriving DecidableEq, Repr

namespace Once

/-- Rust `Once::new()`: `Once(Lock::new(None), PhantomData)` — the Empty cell. -/
def new : Once T := ⟨none⟩

/-- Rust `Once::into_inner(self)`: returns the inner `Option<T>`. -/
def into_inner (c : Once T) : Option T := c.val

/-- Rust `Once::try_set(&self, value)`:
locks the cell; if it is already `Some`, returns `Some(value)` unchanged;
otherwise stores `Some(value)` and returns `None`.
Result is `(returned value, cell state after the call)`. -/
def try_set (c : Once T) (value : T) : Option T × Once T :=
  match c.val with
  | some _ => (some value, c)
  | none => (none, ⟨some value⟩)

/-- Rust `Once::try_set_same(&self, value)` (requires `T: Eq`):
like `try_set`, but when the cell already holds `inner` it runs
`assert!(*inner == value)` before handing `value` back.  The outer `Option`
models the panic of that assertion: `none` is the panic. -/
def try_set_same [DecidableEq T] (c : Once T) (value : T) :
    Option (Option T × Once T) :=
  match c.val with
  | some inner =>
    if inner = value then some (some value, c) else none
  | none => some (none, ⟨some value⟩)

/-- Rust `Once::set(&self, value)`: `assert!(self.try_set(value).is_none())`.
`none` models the panic of the assertion. -/
def set (c : Once T) (value : T) : Option (Once T) :=
  let r := c.try_set value
  if r.1.isNone then some r.2 else none

/-- Rust `Once::init_locking(&self, f)`: holds the lock for the whole
check-and-set; if the cell is set, returns `false` without calling `f`;
otherwise stores `f()` and returns `true`.
Result is `(returned bool, cell state, number of times f was invoked)`. -/
def init_locking (c : Once T) (f : Unit → T) : Bool × Once T × Nat :=
  match c.val with
  | some _ => (false, c, 0)
  | none => (true, ⟨some (f ())⟩, 1)

/-- Rust `Once::init_nonlocking(&self, f)` decomposed at its two lock
acquisitions: the initial `self.0.lock().is_some()` check reads state `s1`;
the `try_set(f())` that follows runs against state `s2` (in parallel mode
another thread may have set the cell in between; in serial mode `s2 = s1`).
Result is `(returned value, cell state, number of times f was invoked)`. -/
def init_nonlocking_racy (s1 s2 : Once T) (f : Unit → T) :
    Option T × Once T × Nat :=
  match s1.val with
  | some _ => (none, s2, 0)
  | none =>
    let r := s2.try_set (f ())
    (r.1, r.2, 1)

/-- Rust `Once::init_nonlocking(&self, f)` in serial mode: both lock
acquisitions see the same state. -/
def init_nonlocking (c : Once T) (f : Unit → T) : Option T × Once T × Nat :=
  init_nonlocking_racy c c f

/-- Rust `Once::init_nonlocking_same(&self, f)` decomposed exactly like
`init_nonlocking_racy`, but the store phase is `try_set_same(f())`, whose
equality assertion may panic (`none`). -/
def init_nonlocking_same_racy [DecidableEq T] (s1 s2 : Once T)
    (f : Unit → T) : Option (Option T × Once T × Nat) :=
  match s1.val with
  | some _ => some (none, s2, 0)
  | none =>
    match s2.try_set_same (f ()) with
    | some r => some (r.1, r.2, 1)
    | none => none

/-- Runs a list of `try_set` calls left to right on a cell, collecting each
call's returned value and the final state. -/
def trySetAll (c : Once T) : List T → List (Option T) × Once T
  | [] => ([], c)
  | v :: vs =>
    let r := c.try_set v
    let rest := trySetAll r.2 vs
    (r.1 :: rest.1, rest.2)

/-- Runs a list of `init_locking` calls left to right on a cell, collecting
each call's returned bool, the final state, and the total number of closure
invocations across all calls. -/
def initLockingAll (c : Once T) : List (Unit → T) → List Bool × Once T × Nat
  | [] => ([], c, 0)
  | f :: fs =>
    let r := c.init_locking f
    let rest := initLockingAll r.2.1 fs
    (r.1 :: rest.1, rest.2.1, r.2.2 + rest.2.2)

/-- Runs a list of `init_nonlocking` calls left to right on a cell (serial
mode), collecting each call's returned value, the final state, and the
total number of closure invocations. -/
def initNonlockingAll (c : Once T) :
    List (Unit → T) → List (Option T) × Once T × Nat
  | [] => ([], c, 0)
  | f :: fs =>
    let r := c.init_nonlocking f
    let rest := initNonlockingAll r.2.1 fs
    (r.1 :: rest.1, rest.2.1, r.2.2 + rest.2.2)

end Once

/-- Rust `Lock<T>` in serial mode: `pub struct Lock<T>(InnerLock<T>)` with
`InnerLock = std::cell::RefCell`.  The state is the owned value together
with the RefCell borrow flag (`borrowed = true` while a `borrow_mut`
guard is live). -/
structure Lock (T : Type u) where
  val : T
  borrowed : Bool
deriving DecidableEq, Repr

namespace Lock

/-- Rust `Lock::new(inner)`: `Lock(InnerLock::new(inner))` — a fresh, unborrowed
cell owning `inner`. -/
def new (inner : T) : Lock T := ⟨inner, false⟩

/-- Rust `Lock::into_inner(self)`: `self.0.into_inner()` — consumes the lock and
returns the owned value. -/
def into_inner (l : Lock T) : T := l.val

/-- Rust `Lock::lock(&self)` in serial mode: `self.0.borrow_mut()`.
`RefCell::borrow_mut` panics when a borrow is already live (`none`);
otherwise it hands out the exclusive guard, i.e. the state with the borrow
flag raised. -/
def lock (l : Lock T) : Option (Lock T) :=
  if l.borrowed then none else some { l with borrowed := true }

/-- Dropping the `LockGuard` (end of its scope, or unwinding when the
closure it was lent to fails): the borrow flag is cleared. -/
def releaseGuard (l : Lock T) : Lock T := { l with borrowed := false }

/-- Rust `Lock::with_lock(&self, f)`: `f(&mut *self.lock())`.
`f` has exclusive mutable access for the duration of the call; it returns
the (possibly partially mutated) value together with either its result or
a failure (`Except.error` models `f` panicking partway).  The guard
acquired by `lock()` is dropped on both exit paths.  The outer `Option`
models the panic of `lock()` itself on re-entrant use. -/
def with_lock (l : Lock T) (f : T → T × Except E R) :
    Option (Except E R × Lock T) :=
  (l.lock).map fun lg =>
    let r := f lg.val
    (r.2, releaseGuard { lg with val := r.1 })

end Lock

/-- Modelled from the spec: in parallel mode `Lock<T>` wraps the external
`parking_lot::Mutex<T>`, which is out of scope of this repository; per the
spec it is "a mutual-exclusion cell wrapping a value of arbitrary type"
whose `into_inner`/`get_mut` "bypass synchronization when the caller
statically holds exclusive ownership".  Only the owned value is
observable here. -/
structure ParLock (T : Type u) where
  val : T
deriving DecidableEq, Repr

namespace ParLock

/-- Modelled from the spec: parallel-mode `Lock::new(value)` "constructs
with ownership of `value`". -/
def new (inner : T) : ParLock T := ⟨inner⟩

/-- Modelled from the spec: parallel-mode `Lock::into_inner()` yields the
inner value back to the owner. -/
def into_inner (l : ParLock T) : T := l.val

end ParLock

/-- Rust `serial_join(oper_a, oper_b)`: `(oper_a(), oper_b())`.
Rust evaluates the tuple left to right, so `oper_a` runs to completion
before `oper_b` starts; we model the closures as state transformers over
an ambient state `S` to make that ordering observable.
Result is `((result of a, result of b), final state)`. -/
def serial_join (oper_a : S → RA × S) (oper_b : S → RB × S) (s : S) :
    (RA × RB) × S :=
  let a := oper_a s
  let b := oper_b a.2
  ((a.1, b.1), b.2)

/-- Modelled from the spec: in parallel mode `join` delegates to the
external rayon runtime (out of scope of this repository); per the spec it
"executes two closures and returns both results" and "always returns only
after both complete".  Pure closures, no observable interleaving. -/
def par_join (oper_a : Unit → RA) (oper_b : Unit → RB) : RA × RB :=
  (oper_a (), oper_b ())

/-- Rust `Atomic<T>` in serial mode: `pub struct Atomic<T: Copy>(Cell<T>)` —
a plain cell holding one value. -/
structure Atomic (T : Type u) where
  val : T
deriving DecidableEq, Repr

namespace Atomic

/-- Rust `Atomic::new(v)`: `Atomic(Cell::new(v))`. -/
def new (v : T) : Atomic T := ⟨v⟩

/-- Rust `Atomic::into_inner(self)`: `self.0.into_inner()`. -/
def into_inner (a : Atomic T) : T := a.val

/-- Rust `Atomic::load(&self, _)`: `self.0.get()` — the ordering is ignored. -/
def load (a : Atomic T) (_o : MemOrdering) : T := a.val

/-- Rust `Atomic::store(&self, val, _)`: `self.0.set(val)`. -/
def store (_a : Atomic T) (v : T) (_o : MemOrdering) : Atomic T := ⟨v⟩

/-- Rust `Atomic::swap(&self, val, _)`: `self.0.replace(val)` — returns the
previous value and leaves `val` in the cell. -/
def swap (a : Atomic T) (v : T) (_o : MemOrdering) : T × Atomic T :=
  (a.val, ⟨v⟩)

/-- Rust `Atomic::compare_exchange(&self, current, new, _, _)`:
reads the cell; if the read value `==` `current`, stores `new` and returns
`Ok(read)`, otherwise leaves the cell unchanged and returns `Err(read)`. -/
def compare_exchange [DecidableEq T] (a : Atomic T) (current new : T)
    (_o1 _o2 : MemOrdering) : (T ⊕ T) × Atomic T :=
  let read := a.val
  if read = current then (Sum.inl read, ⟨new⟩) else (Sum.inr read, a)

/-- Rust `Atomic::fetch_add(&self, val, _)` (requires `T: Add`): reads the old
value, stores `old + val`, returns `old`. -/
def fetch_add [Add T] (a : Atomic T) (v : T) (_o : MemOrdering) :
    T × Atomic T :=
  let old := a.val
  (old, ⟨old + v⟩)

end Atomic

/-- Rust `OneThread<T>` in serial mode: the `thread: ThreadId` field is compiled
out (`#[cfg(parallel_queries)]`), leaving only the owned value; the
identity check `check()` is a no-op. -/
structure OneThread (T : Type u) where
  inner : T
deriving DecidableEq, Repr

namespace OneThread

/-- Rust `OneThread::new(inner)` in serial mode: stores `inner` (no thread id
is recorded). -/
def new (inner : T) : OneThread T := ⟨inner⟩

/-- Rust `OneThread::into_inner(value)` in serial mode: `value.check()` is a
no-op, then the inner value is returned. -/
def into_inner (value : OneThread T) : T := value.inner

end OneThread

/-- Rust `WorkerLocal<T>` in serial mode:
`pub struct WorkerLocal<T>(OneThread<T>)`. -/
structure WorkerLocal (T : Type u) where
  inner : OneThread T
deriving DecidableEq, Repr

namespace WorkerLocal

/-- Rust `WorkerLocal::new(f)` in serial mode:
`WorkerLocal(OneThread::new(f(0)))` — the factory is called once, with
worker index 0. -/
def new (f : Nat → T) : WorkerLocal T := ⟨OneThread.new (f 0)⟩

/-- Rust `WorkerLocal::into_inner(self)` in serial mode:
`vec![OneThread::into_inner(self.0)]` — the one-element sequence of
per-worker values. -/
def into_inner (w : WorkerLocal T) : List T := [OneThread.into_inner w.inner]

end WorkerLocal

/-- The worker-pool size in serial mode: exactly one logical thread. -/
def serialPoolSize : Nat := 1

/-- Rust `HashMapExt::insert_same(&mut self, key, value)` for `HashMap<K, V>`:
`self.entry(key).and_modify(|old| assert!(*old == value)).or_insert(value)`.
The map is modelled extensionally as `K → Option V`.  When `key` is
absent, `or_insert` inserts `value`; when present, `and_modify` asserts
the stored value equals `value` (panic modelled as `none`) and `or_insert`
does nothing. -/
def insert_same {K : Type u} {V : Type v} [DecidableEq K] [DecidableEq V]
    (m : K → Option V) (key : K) (value : V) : Option (K → Option V) :=
  match m key with
  | none => some (fun k => if k = key then some value else m k)
  | some old => if old = value then some m else none

/-- Helper of the embedding: pointwise update of an extensional map, used
to build concrete map states for the `insert_same` scenarios. -/
def mapUpdate {K : Type u} {V : Type v} [DecidableEq K] (m : K → Option V)
    (key : K) (v : Option V) : K → Option V :=
  fun k => if k = key then v else m k

end RustcSync

open RustcSync

/-- Helper: every `try_set` against an already-set cell returns its argument
back and leaves the cell untouched, for a whole sequence of calls. -/
theorem trySetAll_already_set {T : Type u} (w : T) (vs : List T) :
    Once.trySetAll ⟨some w⟩ vs = (vs.map some, ⟨some w⟩) := by
  induction vs with
  | nil => rfl
  | cons v vs ih => simp [Once.trySetAll, Once.try_set, ih]

/-- Helper: every `init_locking` against an already-set cell returns `false`,
never invokes its closure, and leaves the cell untouched, for a whole
sequence of calls. -/
theorem initLockingAll_already_set {T : Type u} (w : T)
    (fs : List (Unit → T)) :
    Once.initLockingAll ⟨some w⟩ fs = (fs.map (fun _ => false), ⟨some w⟩, 0) := by
  induction fs with
  | nil => rfl
  | cons f fs ih => simp [Once.initLockingAll, Once.init_locking, ih]

/-- Helper: every `init_nonlocking` against an already-set cell returns
`none`, never invokes its closure, and leaves the cell untouched, for a
whole sequence of calls. -/
theorem initNonlockingAll_already_set {T : Type u} (w : T)
    (fs : List (Unit → T)) :
    Once.initNonlockingAll ⟨some w⟩ fs =
      (fs.map (fun _ => none), ⟨some w⟩, 0) := by
  induction fs with
  | nil => rfl
  | cons f fs ih =>
    simp [Once.initNonlockingAll, Once.init_nonlocking,
      Once.init_nonlocking_racy, ih]

/-- C1: on a freshly constructed `Once`, a sequence of `try_set` calls has
exactly the first call succeed — it returns `none` and stores its argument
`v` — while every later call returns its own argument back wrapped in
`some`, and the final stored value is still the first call's `v`. -/
theorem claim_C1_try_set_first_call_wins {T : Type u} (v : T) (vs : List T) :
    Once.trySetAll Once.new (v :: vs) =
      (none :: vs.map some, ⟨some v⟩) := by
  simp [Once.trySetAll, Once.try_set, Once.new, trySetAll_already_set]

/-- C2: `set` on an already-set cell panics when the new value differs from
the stored one; `try_set_same` on a cell already holding an equal value
succeeds without mutating the cell and returns the duplicate back; and
`try_set_same` with an unequal value is a fatal assertion failure. -/
theorem claim_C2_set_and_try_set_same {T : Type u} [DecidableEq T]
    (w v : T) (hne : w ≠ v) :
    (Once.mk (some w)).set v = none ∧
    (Once.mk (some v)).try_set_same v = some (some v, Once.mk (some v)) ∧
    (Once.mk (some w)).try_set_same v = none := by
  refine ⟨?_, ?_, ?_⟩ <;>
    simp [Once.set, Once.try_set, Once.try_set_same, hne]

/-- Witness for C2 at `w = 0`, `v = 1` over `Nat`. -/
theorem claim_C2_witness :
    (0 : Nat) ≠ 1 ∧
    ((Once.mk (some (0 : Nat))).set 1 = none ∧
     (Once.mk (some (1 : Nat))).try_set_same 1 =
       some (some 1, Once.mk (some 1)) ∧
     (Once.mk (some (0 : Nat))).try_set_same 1 = none) :=
  ⟨by decide, claim_C2_set_and_try_set_same 0 1 (by decide)⟩

/-- C3: `init_locking` on a set cell does not invoke its closure, returns
`false` and leaves the cell unchanged; on an empty cell it invokes the
closure exactly once, stores its result and returns `true`; and across any
nonempty sequence of `init_locking` calls on a fresh cell exactly the
first call returns `true`, the closure-invocation total is one, and the
stored value is the first closure's result (a sequence on an already-set
cell performs zero invocations and returns all `false`). -/
theorem claim_C3_init_locking {T : Type u} (f g : Unit → T) (w : T)
    (fs : List (Unit → T)) :
    (Once.mk (some w)).init_locking g = (false, Once.mk (some w), 0) ∧
    Once.new.init_locking f = (true, Once.mk (some (f ())), 1) ∧
    Once.initLockingAll Once.new (f :: fs) =
      (true :: fs.map (fun _ => false), Once.mk (some (f ())), 1) ∧
    Once.initLockingAll (Once.mk (some w)) fs =
      (fs.map (fun _ => false), Once.mk (some w), 0) := by
  refine ⟨rfl, rfl, ?_, initLockingAll_already_set w fs⟩
  simp [Once.initLockingAll, Once.init_locking, Once.new,
    initLockingAll_already_set]

/-- C4: `init_nonlocking` on a set cell returns `none` without invoking the
closure; on an empty cell it invokes the closure, stores the result and
returns `none`; when the cell was empty at the check but set by the time
of the store (the racy decomposition), the computed value is handed back
as `some` and the stored value is not overwritten; across a sequence of
calls on a fresh cell only the first call's value is ever stored; and the
`_same` variant asserts a losing result equals the stored value, panicking
on mismatch. -/
theorem claim_C4_init_nonlocking {T : Type u} [DecidableEq T] (w : T)
    (f : Unit → T) (fs : List (Unit → T)) :
    (Once.mk (some w)).init_nonlocking f = (none, Once.mk (some w), 0) ∧
    Once.new.init_nonlocking f = (none, Once.mk (some (f ())), 1) ∧
    Once.init_nonlocking_racy Once.new (Once.mk (some w)) f =
      (some (f ()), Once.mk (some w), 1) ∧
    Once.initNonlockingAll Once.new (f :: fs) =
      (none :: fs.map (fun _ => none), Once.mk (some (f ())), 1) ∧
    Once.init_nonlocking_same_racy Once.new (Once.mk (some w)) f =
      (if w = f () then some (some (f ()), Once.mk (some w), 1) else none) := by
  refine ⟨rfl, rfl, rfl, ?_, ?_⟩
  · simp [Once.initNonlockingAll, Once.init_nonlocking,
      Once.init_nonlocking_racy, Once.new, Once.try_set,
      initNonlockingAll_already_set]
  · by_cases h : w = f () <;>
      simp [Once.init_nonlocking_same_racy, Once.try_set_same, Once.new, h]

/-- C5: in both build modes, constructing a `Lock` around a value and then
consuming it with `into_inner` yields exactly that value (the serial
`RefCell`-backed lock from the source, and the parallel lock modelled
from the spec). -/
theorem claim_C5_lock_roundtrip {T : Type u} (v : T) :
    (Lock.new v).into_inner = v ∧ (ParLock.new v).into_inner = v :=
  ⟨rfl, rfl⟩

/-- C6: `with_lock f` on an unborrowed lock invokes `f` exactly once with
exclusive access to the inner value, returns `f`'s result (whether `f`
succeeded or failed partway), and releases the borrow on every exit path,
so that a subsequent `lock()` on the resulting state succeeds. -/
theorem claim_C6_with_lock {T : Type u} {E : Type v} {R : Type w}
    (l : Lock T) (f : T → T × Except E R) (h : l.borrowed = false) :
    l.with_lock f = some ((f l.val).2, Lock.mk (f l.val).1 false) ∧
    (Lock.mk (f l.val).1 false).lock.isSome = true := by
  constructor
  · simp [Lock.with_lock, Lock.lock, Lock.releaseGuard, h]
  · simp [Lock.lock]

/-- Witness for C6: a closure that mutates the value and then fails still
has the lock released, and a later `lock()` succeeds. -/
theorem claim_C6_witness :
    (Lock.new (3 : Nat)).borrowed = false ∧
    ((Lock.new (3 : Nat)).with_lock
        (fun t => (t + 1, (Except.error () : Except Unit Nat))) =
      some (Except.error (), Lock.mk 4 false) ∧
     (Lock.mk (4 : Nat) false).lock.isSome = true) :=
  ⟨rfl, claim_C6_with_lock (Lock.new 3)
    (fun t => (t + 1, Except.error ())) rfl⟩

/-- C7: `serial_join` runs both closures and returns the pair of both
results, with `oper_a` run to completion before `oper_b` starts (the
second closure observes the state left by the first); in particular
`join(|| 1, || 2)` returns `(1, 2)` in serial mode, and the spec-modelled
parallel `join` returns `(1, 2)` as well. -/
theorem claim_C7_join_results {S : Type u} {RA : Type u} {RB : Type u}
    (oper_a : S → RA × S) (oper_b : S → RB × S) (s : S) :
    serial_join oper_a oper_b s =
      (((oper_a s).1, (oper_b (oper_a s).2).1), (oper_b (oper_a s).2).2) ∧
    (serial_join (fun t : Unit => ((1 : Nat), t))
        (fun t => ((2 : Nat), t)) ()).1 = (1, 2) ∧
    par_join (fun _ => (1 : Nat)) (fun _ => (2 : Nat)) = (1, 2) :=
  ⟨rfl, rfl, rfl⟩

/-- C8: the serial `Atomic` operations have exact sequential semantics
ignoring the ordering arguments: `load` returns the current value, `store`
replaces it, `swap` stores the new value and returns the previous one,
`compare_exchange` stores `nw` and returns `Ok(old)` exactly when the old
value equals `current` (otherwise it leaves the cell unchanged and returns
`Err(old)`), and `fetch_add` returns the old value leaving `old + v`. -/
theorem claim_C8_atomic_ops {T : Type u} [DecidableEq T] [Add T]
    (a : Atomic T) (v current nw : T) (o o1 o2 : MemOrdering) :
    a.load o = a.val ∧
    (a.store v o).load o1 = v ∧
    a.swap v o = (a.val, Atomic.mk v) ∧
    a.compare_exchange current nw o1 o2 =
      (if a.val = current
        then (Sum.inl a.val, Atomic.mk nw)
        else (Sum.inr a.val, a)) ∧
    a.fetch_add v o = (a.val, Atomic.mk (a.val + v)) :=
  ⟨rfl, rfl, rfl, rfl, rfl⟩

/-- C9: in serial mode `WorkerLocal::new(f)` consults the factory only at
worker index 0 (factories agreeing at 0 build equal structures), and
`into_inner` yields the one-element sequence `[f 0]`, whose length is the
serial pool size and whose element 0 is `f 0`; in particular
`WorkerLocal::new(|i| i).into_inner()` is `[0]`. -/
theorem claim_C9_worker_local {T : Type u} (f g : Nat → T)
    (h : f 0 = g 0) :
    (WorkerLocal.new f).into_inner = [f 0] ∧
    ((WorkerLocal.new f).into_inner).length = serialPoolSize ∧
    ((WorkerLocal.new f).into_inner)[0]? = some (f 0) ∧
    WorkerLocal.new f = WorkerLocal.new g ∧
    (WorkerLocal.new (fun i : Nat => i)).into_inner = [0] :=
  ⟨rfl, rfl, rfl, by simp [WorkerLocal.new, OneThread.new, h], rfl⟩

/-- Witness for C9 with two distinct factories agreeing at index 0. -/
theorem claim_C9_witness :
    (fun i : Nat => i + 5) 0 = (fun i : Nat => 5 - i) 0 ∧
    ((WorkerLocal.new (fun i : Nat => i + 5)).into_inner = [5] ∧
     ((WorkerLocal.new (fun i : Nat => i + 5)).into_inner).length =
       serialPoolSize ∧
     ((WorkerLocal.new (fun i : Nat => i + 5)).into_inner)[0]? = some 5 ∧
     WorkerLocal.new (fun i : Nat => i + 5) =
       WorkerLocal.new (fun i : Nat => 5 - i) ∧
     (WorkerLocal.new (fun i : Nat => i)).into_inner = [0]) :=
  ⟨rfl, claim_C9_worker_local (fun i => i + 5) (fun i => 5 - i) rfl⟩

/-- C10: `insert_same` inserts `(key, value)` when `key` is absent; when
`key` is present with an equal value it returns the map completely
unchanged; and when `key` is present it panics exactly when the stored
value differs from `value`. -/
theorem claim_C10_insert_same {K : Type u} {V : Type v} [DecidableEq K]
    [DecidableEq V] (m : K → Option V) (k : K) (v w : V) :
    insert_same (mapUpdate m k none) k v =
      some (mapUpdate (mapUpdate m k none) k (some v)) ∧
    insert_same (mapUpdate m k (some v)) k v =
      some (mapUpdate m k (some v)) ∧
    insert_same (mapUpdate m k (some w)) k v =
      (if w = v then some (mapUpdate m k (some w)) else none) := by
  refine ⟨?_, ?_, ?_⟩
  · simp only [insert_same, mapUpdate, if_pos]
    refine congrArg some ?_
    funext x
    by_cases hx : x = k <;> simp [mapUpdate, hx]
  · simp [insert_same, mapUpdate]
  · by_cases h : w = v <;> simp [insert_same, mapUpdate, h]
